import Mathlib

/-!
Shallow embedding of the PyEnv dependency scanner
(src/dependency_parser.py) and verification of its specification.

The program is a linear pipeline:
file discovery, import extraction, standard-library filtering,
package-name validation against a remote index, platform adjustment,
and manifest (requirements.txt) generation.

Python strings are modelled as Lean `String`; character-level operations
(substring tests, splitting on the embedded marker, stripping) are defined
over `String.data : List Char` by structural recursion so that every
definition is executable and kernel-reducible. Python `set` objects are
modelled as `Finset String`; where the program iterates over a set, the
model takes the (arbitrary) iteration order as an explicit list. The
remote package index (HTTP existence check and XML-RPC search) and the
filesystem are modelled as oracle functions supplied as parameters.
-/

namespace PyEnv

/-! ### Character-level string operations -/

/-- Whitespace predicate backing the model of Python `str.strip()`. -/
def isSpaceChar (c : Char) : Bool :=
  c = ' ' || c = '\t' || c = '\n' || c = '\r'

/-- Model of Python `str.strip()`: drop whitespace from both ends. -/
def stripChars (l : List Char) : List Char :=
  ((l.dropWhile isSpaceChar).reverse.dropWhile isSpaceChar).reverse

/-- Model of Python `needle in hay` substring containment. -/
def containsSub (needle hay : List Char) : Bool :=
  hay.tails.any (fun t => needle.isPrefixOf t)

/-- Model of Python `s.startswith(pre)`. -/
def startsWithStr (pre s : String) : Bool :=
  pre.data.isPrefixOf s.data

/-- Model of Python `s.endswith(suf)`. -/
def endsWithStr (suf s : String) : Bool :=
  suf.data.isSuffixOf s.data

/-- Model of Python `dep.split(' -f ')`: split on every non-overlapping
occurrence of the four-character marker, left to right. -/
def splitOnMarker : List Char → List (List Char)
  | [] => [[]]
  | ' ' :: '-' :: 'f' :: ' ' :: rest => [] :: splitOnMarker rest
  | c :: rest =>
    match splitOnMarker rest with
    | [] => [[c]]
    | p :: ps => (c :: p) :: ps

/-- Model of Python `alias.name.split('.')[0]`: the text before the
first dot (the whole string when there is no dot). -/
def rootSegment (name : String) : String :=
  ⟨name.data.takeWhile (fun c => c ≠ '.')⟩

/-! ### Manual mapping of import names to actual PyPI package names
(the `manual_package_mapping` dict). -/

/-- The `manual_package_mapping` dict as an association list. -/
def manual_package_mapping : List (String × String) :=
  [("cv2", "opencv-python"), ("skimage", "scikit-image"), ("bs4", "beautifulsoup4")]

/-- Dictionary lookup in `manual_package_mapping`. -/
def lookupMapping (dep : String) : Option String :=
  if dep = "cv2" then some ("opencv-python")
  else if dep = "skimage" then some ("scikit-image")
  else if dep = "bs4" then some ("beautifulsoup4")
  else none

/-! ### File discovery (`find_python_files`) -/

/-- One directory visited by `os.walk`: its path and the plain files in it. -/
structure FSDir where
  path : String
  files : List String
deriving DecidableEq

/-- Abstract filesystem oracle: the results of `os.walk`, `os.listdir`
and the `is_virtual_env` probe (which checks for a `bin` or `Scripts`
subdirectory). -/
structure FS where
  walk : String → List FSDir
  listdir : String → List String
  isVenv : String → Bool

/-- Model of `os.path.join` on POSIX paths. -/
def joinPath (root file : String) : String :=
  root ++ "/" ++ file

/-- The recursive-walk half of `find_python_files` for one configured
path: skip directories whose path contains an ignored substring or that
look like a virtual environment; in directories whose path contains an
included-folder substring, collect every `.py` file. -/
def walkFiles (fs : FS) (include_folders ignore_dirs : List String) (path : String) :
    List String :=
  (fs.walk path).flatMap (fun d =>
    if ignore_dirs.any (fun ig => containsSub ig.data d.path.data) || fs.isVenv d.path then
      []
    else if include_folders.any (fun fo => containsSub fo.data d.path.data) then
      (d.files.filter (fun f => endsWithStr (".py") f)).map (fun f => joinPath d.path f)
    else [])

/-- The top-level-listing half of `find_python_files` for one configured
path: every `.py` file directly in the path, unless its full path is
literally a member of the ignore list. -/
def rootListFiles (fs : FS) (ignore_dirs : List String) (path : String) : List String :=
  (fs.listdir path).filterMap (fun f =>
    if endsWithStr (".py") f && !(ignore_dirs.contains (joinPath path f)) then
      some (joinPath path f)
    else none)

/-- Model of `find_python_files`: for each configured path, the walk
results followed by the top-level listing results, concatenated in order. -/
def find_python_files (fs : FS) (paths include_folders ignore_dirs : List String) :
    List String :=
  paths.flatMap (fun p =>
    walkFiles fs include_folders ignore_dirs p ++ rootListFiles fs ignore_dirs p)

/-! ### Import extraction (`extract_dependencies`) -/

/-- An import-relevant node of a parsed file, as seen by `ast.walk`:
an `import X` node carries its alias names (possibly dotted), an
`ImportFrom` node carries an optional module name (absent for purely
relative imports such as `from . import X`), and `other` stands for any
node that is neither. -/
inductive PyStmt where
  | imp (names : List String)
  | impFrom (module : Option String)
  | other
deriving DecidableEq

/-- A source file as the extractor sees it: `parse = none` models a
`SyntaxError` (the file is skipped with a warning), `parse = some stmts`
the nodes yielded by walking the syntax tree. -/
structure PyFile where
  parse : Option (List PyStmt)
deriving DecidableEq

/-- The root module names one node contributes to the dependency set. -/
def stmtDeps : PyStmt → List String
  | .imp names => names.map rootSegment
  | .impFrom (some m) => [rootSegment m]
  | .impFrom none => []
  | .other => []

/-- The root module names one file contributes (none on a parse error). -/
def fileDeps (f : PyFile) : List String :=
  match f.parse with
  | some stmts => stmts.flatMap stmtDeps
  | none => []

/-- Model of `extract_dependencies`: the set of root module names of
all import nodes in all files that parse. -/
def extract_dependencies (files : List PyFile) : Finset String :=
  (files.flatMap fileDeps).toFinset

/-! ### Standard-library filtering (`get_standard_lib_modules`,
`filter_dependencies`) -/

/-- The hardcoded list of commonly known standard modules added at the
end of `get_standard_lib_modules`. -/
def hardcodedCommonModules : List String :=
  ["collections", "os", "sys", "re", "math", "json", "time", "datetime",
   "random", "itertools", "functools", "subprocess", "threading", "logging",
   "multiprocessing", "ctypes", "pickle", "asyncio", "typing", "unittest",
   "queue", "pathlib", "socket", "email", "string", "struct", "heapq",
   "copy", "enum", "inspect"]

/-- Model of `get_standard_lib_modules`. `builtinNames` models
`sys.builtin_module_names` and `dirModules` the modules found by
`pkgutil.iter_modules` in the standard-library directory (empty when the
directory does not exist); both are environment oracles. -/
def get_standard_lib_modules (builtinNames dirModules : List String) : Finset String :=
  (builtinNames ++ dirModules ++ hardcodedCommonModules).toFinset

/-- Model of `filter_dependencies`: keep exactly the names that are not
standard-library modules. -/
def filter_dependencies (builtinNames dirModules : List String)
    (dependencies : Finset String) : Finset String :=
  dependencies.filter (fun dep => dep ∉ get_standard_lib_modules builtinNames dirModules)

/-! ### Package validation (`check_pypi_package`, `search_pypi_package`,
`validate_dependencies`) -/

/-- The remote package index as an oracle: `check` models the HTTP
existence probe `check_pypi_package` (network errors already folded into
a `false` answer, as in the code) and `search` models
`search_pypi_package` (returning the chosen candidate name, or `none`
on no result or error). -/
structure PyPI where
  check : String → Bool
  search : String → Option String

/-- Model of Python `dep.startswith("_")`. -/
def startsWithUnderscore (dep : String) : Bool :=
  match dep.data with
  | '_' :: _ => true
  | _ => false

/-- Resolution of a single candidate name, instrumented: the first
component is the package name added to the validated set (or `none` when
the name is skipped or unresolved), the second lists every name sent to
the package index (by `check` or `search`), in order. -/
def resolveDep (idx : PyPI) (dep : String) : Option String × List String :=
  if startsWithUnderscore dep then (none, [])
  else
    match lookupMapping dep with
    | some packageName => (some packageName, [])
    | none =>
      if idx.check dep then (some dep, [dep])
      else
        match idx.search dep with
        | some packageName =>
          if idx.check packageName then (some packageName, [dep, packageName])
          else (none, [dep, packageName])
        | none => (none, [dep])

/-- Model of `validate_dependencies`: fold `resolveDep` over the
candidate names (in the set-iteration order given by the list),
collecting the resolved package names. -/
def validate_dependencies (idx : PyPI) (deps : List String) : Finset String :=
  deps.foldr (fun dep acc =>
    match (resolveDep idx dep).1 with
    | some packageName => insert packageName acc
    | none => acc) ∅

/-! ### Platform adjustment (`adjust_dependencies`) -/

/-- The hardcoded CUDA-enabled torch requirement string. -/
def gpuTorchStr : String :=
  "torch==2.0.1+cu117 -f https://download.pytorch.org/whl/torch_stable.html"

/-- The hardcoded CPU torch requirement string. -/
def cpuTorchStr : String :=
  "torch==2.0.1+cpu -f https://download.pytorch.org/whl/torch_stable.html"

/-- The hardcoded CUDA-enabled torchvision requirement string. -/
def gpuTorchvisionStr : String :=
  "torchvision==0.15.2+cu117 -f https://download.pytorch.org/whl/torch_stable.html"

/-- The hardcoded CPU torchvision requirement string. -/
def cpuTorchvisionStr : String :=
  "torchvision==0.15.2+cpu -f https://download.pytorch.org/whl/torch_stable.html"

/-- The torch requirement string selected by `adjust_dependencies` for a
system type (both the linux and the windows GPU branches pick the same
cu117 string; any other GPU system falls back to plain `torch`; every
non-GPU system gets the CPU string). -/
def torchVersionFor (system_type : String) : String :=
  if endsWithStr ("gpu") system_type then
    if startsWithStr ("linux") system_type then gpuTorchStr
    else if startsWithStr ("windows") system_type then gpuTorchStr
    else ("torch")
  else cpuTorchStr

/-- The torchvision requirement string selected by `adjust_dependencies`
for a system type. -/
def torchvisionVersionFor (system_type : String) : String :=
  if endsWithStr ("gpu") system_type then
    if startsWithStr ("linux") system_type then gpuTorchvisionStr
    else if startsWithStr ("windows") system_type then gpuTorchvisionStr
    else ("torchvision")
  else cpuTorchvisionStr

/-- Model of `adjust_dependencies`, following the code statement by
statement: when `torch` or `ultralytics` is present, discard `torch` and
add the selected torch variant; then likewise for `torchvision`; then
re-add `ultralytics` as a bare name; finally add every remaining
dependency unchanged. -/
def adjust_dependencies (dependencies : Finset String) (system_type : String) :
    Finset String :=
  let torchFlag := "torch" ∈ dependencies ∨ "ultralytics" ∈ dependencies
  let deps1 := if torchFlag then dependencies.erase ("torch") else dependencies
  let acc1 : Finset String := if torchFlag then {torchVersionFor system_type} else ∅
  let tvFlag := "torchvision" ∈ deps1 ∨ "ultralytics" ∈ deps1
  let deps2 := if tvFlag then deps1.erase ("torchvision") else deps1
  let acc2 := if tvFlag then insert (torchvisionVersionFor system_type) acc1 else acc1
  let uFlag := "ultralytics" ∈ deps2
  let deps3 := if uFlag then deps2.erase ("ultralytics") else deps2
  let acc3 := if uFlag then insert ("ultralytics") acc2 else acc2
  acc3 ∪ deps3

/-- The single requirement line (or variant string) that a validated
package turns into under platform adjustment: `torch` and `torchvision`
become their selected variant strings, everything else is unchanged. -/
def adjustOne (system_type dep : String) : String :=
  if dep = "torch" then torchVersionFor system_type
  else if dep = "torchvision" then torchvisionVersionFor system_type
  else dep

/-! ### Manifest generation (`generate_requirements_txt`) -/

/-- One entry of the generated requirements manifest: either a bare
dependency on a single line, or a package line plus a continuation line
carrying a find-links directive. -/
inductive ManifestEntry where
  | bare (name : List Char)
  | withFindLinks (pkg url : List Char)
deriving DecidableEq

/-- The lines an entry occupies in the written file: a bare entry is one
line; a find-links entry is the stripped package part followed by a
backslash, then an indented `--find-links` continuation line. -/
def entryLines : ManifestEntry → List (List Char)
  | .bare name => [name]
  | .withFindLinks pkg url =>
    [pkg ++ (" \\").data, ("    --find-links ").data ++ url]

/-- Writing one dependency: names without the embedded marker are
written bare; names splitting into exactly a package part and a url part
become a find-links pair; any other split arity makes the tuple
unpacking raise (modelled as `none`). -/
def generateEntry (dep : String) : Option ManifestEntry :=
  match splitOnMarker dep.data with
  | [_] => some (.bare dep.data)
  | [pkgPart, urlPart] => some (.withFindLinks (stripChars pkgPart) (stripChars urlPart))
  | _ => none

/-- The entry a dependency is written as, when writing succeeds. -/
def entryOf (dep : String) : ManifestEntry :=
  match splitOnMarker dep.data with
  | [pkgPart, urlPart] => .withFindLinks (stripChars pkgPart) (stripChars urlPart)
  | _ => .bare dep.data

/-- Model of `generate_requirements_txt` over the dependency set in
iteration order: the sequence of entries written, or `none` when writing
raises partway (the exception is caught and logged; the process
continues). -/
def generate_requirements_txt (deps : List String) : Option (List ManifestEntry) :=
  match deps with
  | [] => some []
  | dep :: rest =>
    match generateEntry dep with
    | none => none
    | some e => (generate_requirements_txt rest).map (fun es => e :: es)

/-! ### The main program (`__main__` block) -/

/-- Outcome of a run of the `__main__` block: terminated early with an
exit code (an uncaught exception from `load_config`, or the explicit
`sys.exit(1)` in `create_virtual_env`), or ran to the end — implicit
success — carrying the manifest written (`none` when writing failed and
was merely logged). -/
inductive RunOutcome where
  | exit (code : Nat)
  | success (manifest : Option (List ManifestEntry))
deriving DecidableEq

/-- Environment of one run: whether `config_v1.yml` loads, whether the
`venv` subprocess succeeds, whether the OS lets the manifest file be
written, the discovered source files, the package-index oracle, the
standard-library oracles, the detected system type, and the iteration
order Python happens to use for each set. -/
structure MainEnv where
  configOk : Bool
  venvOk : Bool
  osWriteOk : Bool
  files : List PyFile
  idx : PyPI
  builtinNames : List String
  dirModules : List String
  system_type : String
  enum : Finset String → List String

/-- Model of the `__main__` block: a missing or malformed configuration
aborts (uncaught exception), a failed `venv` subprocess aborts via
`sys.exit(1)`, and everything after that runs to implicit success — all
later failures (parse errors, network errors, manifest-write errors) are
caught and logged inside the pipeline stages. -/
def runMain (e : MainEnv) : RunOutcome :=
  if ¬ e.configOk then .exit 1
  else if ¬ e.venvOk then .exit 1
  else
    let deps := extract_dependencies e.files
    let filtered := filter_dependencies e.builtinNames e.dirModules deps
    let validated := validate_dependencies e.idx (e.enum filtered)
    let adjusted := adjust_dependencies validated e.system_type
    .success (if e.osWriteOk then generate_requirements_txt (e.enum adjusted) else none)

/-! ### Shared helper lemmas -/

/-- Two strings with the same character data are equal. -/
theorem String.data_injective {a b : String} (h : a.data = b.data) : a = b := by
  cases a
  cases b
  exact congrArg String.mk h

/-- A trivial package-index oracle: every existence probe fails, every
search comes back empty (an unreachable index). -/
def offlineIdx : PyPI :=
  ⟨fun _ => false, fun _ => none⟩

/-- A package-index oracle on which every existence probe succeeds. -/
def onlineIdx : PyPI :=
  ⟨fun _ => true, fun _ => none⟩

/-- Unfolding one step of `validate_dependencies`. -/
theorem validate_cons (idx : PyPI) (dep : String) (deps : List String) :
    validate_dependencies idx (dep :: deps) =
      (match (resolveDep idx dep).1 with
       | some packageName => insert packageName (validate_dependencies idx deps)
       | none => validate_dependencies idx deps) := rfl

/-- A name whose resolution succeeds lands in the validated set. -/
theorem mem_validate_of_resolve (idx : PyPI) (dep pkg : String) (deps : List String)
    (hd : dep ∈ deps) (hr : (resolveDep idx dep).1 = some pkg) :
    pkg ∈ validate_dependencies idx deps := by
  induction deps with
  | nil => cases hd
  | cons d rest ih =>
    rw [validate_cons]
    rcases List.mem_cons.mp hd with h | h
    · subst h
      rw [hr]
      exact Finset.mem_insert_self _ _
    · have hm := ih h
      cases hres : (resolveDep idx d).1 with
      | some q => simp only [hres]; exact Finset.mem_insert_of_mem hm
      | none => simpa only [hres] using hm

/-- A key of the manual mapping never starts with an underscore. -/
theorem lookup_not_underscore {dep pkg : String}
    (h : lookupMapping dep = some pkg) : startsWithUnderscore dep = false := by
  rw [lookupMapping] at h
  split_ifs at h with h1 h2 h3 <;> subst_vars <;> decide

/-- Resolution of a manually mapped name: the mapped package, no index
traffic. -/
theorem resolveDep_of_lookup (idx : PyPI) {dep pkg : String}
    (h : lookupMapping dep = some pkg) :
    resolveDep idx dep = (some pkg, []) := by
  have hu := lookup_not_underscore h
  simp [resolveDep, hu, h]

/-- C5: the set returned by `filter_dependencies` contains no name that
belongs to the standard-library module set computed by
`get_standard_lib_modules` — neither a built-in module name, nor a module
found in the standard-library directory, nor one of the hardcoded common
modules. -/
theorem filtered_excludes_standard_lib (builtinNames dirModules : List String)
    (dependencies : Finset String) (dep : String)
    (h : dep ∈ filter_dependencies builtinNames dirModules dependencies) :
    dep ∉ get_standard_lib_modules builtinNames dirModules ∧
    dep ∉ builtinNames ∧ dep ∉ dirModules ∧ dep ∉ hardcodedCommonModules := by
  rw [filter_dependencies, Finset.mem_filter] at h
  obtain ⟨-, h2⟩ := h
  refine ⟨h2, ?_, ?_, ?_⟩ <;> intro hx <;>
    exact h2 (by simp [get_standard_lib_modules, hx])

/-- Witness for C5 at a concrete input. -/
theorem filtered_excludes_standard_lib_witness :
    ("numpy") ∈ filter_dependencies ["sys"] ["os"] {"numpy", "os"} ∧
    (("numpy") ∉ get_standard_lib_modules ["sys"] ["os"] ∧
     ("numpy") ∉ ["sys"] ∧ ("numpy") ∉ ["os"] ∧
     ("numpy") ∉ hardcodedCommonModules) :=
  ⟨by decide, filtered_excludes_standard_lib ["sys"] ["os"] {"numpy", "os"}
    ("numpy") (by decide)⟩

/-- C6: a name beginning with an underscore is skipped outright: its
resolution is `none` with no package-index query of any kind, and it
contributes nothing to the validated set. -/
theorem underscore_never_validated (idx : PyPI) (dep : String)
    (h : startsWithUnderscore dep = true) :
    resolveDep idx dep = (none, []) ∧
    (∀ deps : List String,
      validate_dependencies idx (dep :: deps) = validate_dependencies idx deps) := by
  have h1 : resolveDep idx dep = (none, []) := by rw [resolveDep, if_pos h]
  exact ⟨h1, fun deps => by rw [validate_cons, h1]⟩

/-- Witness for C6 at a concrete input. -/
theorem underscore_never_validated_witness :
    startsWithUnderscore ("_abc") = true ∧
    resolveDep onlineIdx ("_abc") = (none, []) ∧
    validate_dependencies onlineIdx ["_abc", "requests"] =
      validate_dependencies onlineIdx ["requests"] := by
  have h := underscore_never_validated onlineIdx ("_abc") (by decide)
  exact ⟨by decide, h.1, h.2 ["requests"]⟩

/-- C4: a module name that is a key of the manual mapping table resolves
to exactly the mapped package name with no package-index query, the result
is identical under every package-index oracle, and the mapped name lands
in the validated set whenever the module is among the candidates. -/
theorem manual_mapping_always_resolves (idx : PyPI) (dep pkg : String)
    (h : lookupMapping dep = some pkg) :
    resolveDep idx dep = (some pkg, []) ∧
    (∀ idx2 : PyPI, resolveDep idx2 dep = resolveDep idx dep) ∧
    (dep, pkg) ∈ manual_package_mapping ∧
    (∀ deps : List String, dep ∈ deps → pkg ∈ validate_dependencies idx deps) := by
  refine ⟨resolveDep_of_lookup idx h, ?_, ?_, ?_⟩
  · intro idx2
    rw [resolveDep_of_lookup idx h, resolveDep_of_lookup idx2 h]
  · rw [lookupMapping] at h
    split_ifs at h with h1 h2 h3 <;> subst_vars <;>
      simp_all [manual_package_mapping]
  · intro deps hd
    exact mem_validate_of_resolve idx dep pkg deps hd
      (by rw [resolveDep_of_lookup idx h])

/-- Witness for C4 at a concrete input: the index is unreachable
(`offlineIdx`) and the mapped package is still produced. -/
theorem manual_mapping_always_resolves_witness :
    lookupMapping ("cv2") = some ("opencv-python") ∧
    resolveDep offlineIdx ("cv2") = (some ("opencv-python"), []) ∧
    resolveDep onlineIdx ("cv2") = resolveDep offlineIdx ("cv2") ∧
    ("opencv-python") ∈ validate_dependencies offlineIdx ["cv2", "numpy"] := by
  have h := manual_mapping_always_resolves offlineIdx ("cv2") ("opencv-python")
    (by decide)
  exact ⟨by decide, h.1, h.2.1 onlineIdx, h.2.2.2 ["cv2", "numpy"] (by decide)⟩

/-- C9: a purely relative import (an `ImportFrom` node with no module
name) contributes nothing to the extracted dependency set: its statement
yields no names, and dropping it from a file leaves
`extract_dependencies` unchanged. -/
theorem relative_import_contributes_nothing (stmts : List PyStmt) (fs : List PyFile) :
    stmtDeps (.impFrom none) = [] ∧
    extract_dependencies (⟨some (PyStmt.impFrom none :: stmts)⟩ :: fs) =
      extract_dependencies (⟨some stmts⟩ :: fs) := by
  refine ⟨rfl, ?_⟩
  simp [extract_dependencies, fileDeps, stmtDeps]

/-- C3: for every file that parses, the root segment of every name of an
`import X` node and of every named `from X import` node is a member of
the raw dependency set returned by `extract_dependencies`. -/
theorem import_roots_extracted (files : List PyFile) (f : PyFile)
    (stmts : List PyStmt) (hf : f ∈ files) (hp : f.parse = some stmts)
    (s : PyStmt) (hs : s ∈ stmts) :
    (∀ names, s = .imp names →
      ∀ n ∈ names, rootSegment n ∈ extract_dependencies files) ∧
    (∀ m, s = .impFrom (some m) →
      rootSegment m ∈ extract_dependencies files) := by
  have key : ∀ d ∈ stmtDeps s, d ∈ extract_dependencies files := by
    intro d hd
    rw [extract_dependencies, List.mem_toFinset, List.mem_flatMap]
    refine ⟨f, hf, ?_⟩
    rw [fileDeps, hp]
    exact List.mem_flatMap.mpr ⟨s, hs, hd⟩
  constructor
  · rintro names rfl n hn
    exact key _ (by rw [stmtDeps]; exact List.mem_map.mpr ⟨n, hn, rfl⟩)
  · rintro m rfl
    exact key _ (by rw [stmtDeps]; exact List.mem_singleton.mpr rfl)

/-- Witness for C3 at a concrete input. -/
theorem import_roots_extracted_witness :
    rootSegment ("numpy.linalg") = "numpy" ∧
    rootSegment ("numpy.linalg") ∈
      extract_dependencies [⟨some [PyStmt.imp ["numpy.linalg"]]⟩] := by
  have h := import_roots_extracted [⟨some [PyStmt.imp ["numpy.linalg"]]⟩]
    ⟨some [PyStmt.imp ["numpy.linalg"]]⟩ [PyStmt.imp ["numpy.linalg"]]
    (by decide) rfl (PyStmt.imp ["numpy.linalg"]) (by decide)
  exact ⟨by decide, h.1 ["numpy.linalg"] rfl ("numpy.linalg") (by decide)⟩

/-! ### Lemmas about `adjust_dependencies` -/

/-- When `torch` or `ultralytics` is among the dependencies, the selected
torch variant string is in the adjusted set. -/
theorem torchVersion_mem_adjust (deps : Finset String) (sys : String)
    (h : ("torch") ∈ deps ∨ ("ultralytics") ∈ deps) :
    torchVersionFor sys ∈ adjust_dependencies deps sys := by
  simp only [adjust_dependencies, if_pos h]
  split_ifs <;> simp

/-- When `torchvision` or `ultralytics` is among the dependencies, the
selected torchvision variant string is in the adjusted set. -/
theorem torchvisionVersion_mem_adjust (deps : Finset String) (sys : String)
    (h : ("torchvision") ∈ deps ∨ ("ultralytics") ∈ deps) :
    torchvisionVersionFor sys ∈ adjust_dependencies deps sys := by
  simp only [adjust_dependencies]
  have htv :
      (("torchvision") ∈
          (if ("torch") ∈ deps ∨ ("ultralytics") ∈ deps
            then deps.erase ("torch") else deps) ∨
        ("ultralytics") ∈
          (if ("torch") ∈ deps ∨ ("ultralytics") ∈ deps
            then deps.erase ("torch") else deps)) := by
    split_ifs with hf
    · rcases h with h | h
      · exact Or.inl (Finset.mem_erase.mpr ⟨by decide, h⟩)
      · exact Or.inr (Finset.mem_erase.mpr ⟨by decide, h⟩)
    · exact h
  simp only [if_pos htv]
  split_ifs <;> simp

/-- When `ultralytics` is among the dependencies, it survives adjustment
as a bare name. -/
theorem ultralytics_mem_adjust (deps : Finset String) (sys : String)
    (h : ("ultralytics") ∈ deps) :
    ("ultralytics") ∈ adjust_dependencies deps sys := by
  have h1 : ("ultralytics") ∈ deps.erase ("torch") :=
    Finset.mem_erase.mpr ⟨by decide, h⟩
  have h2 : ("ultralytics") ∈ (deps.erase ("torch")).erase ("torchvision") :=
    Finset.mem_erase.mpr ⟨by decide, h1⟩
  simp only [adjust_dependencies]
  split_ifs <;> simp_all [Finset.mem_erase]

/-- Dependencies other than the three special names pass through
adjustment unchanged. -/
theorem other_mem_adjust (deps : Finset String) (sys : String) (p : String)
    (hp : p ∈ deps) (h1 : p ≠ "torch") (h2 : p ≠ "torchvision")
    (h3 : p ≠ "ultralytics") :
    p ∈ adjust_dependencies deps sys := by
  simp only [adjust_dependencies]
  split_ifs <;>
    (apply Finset.mem_union_right; simp [Finset.mem_erase, h1, h2, h3, hp])

/-- Every element of the adjusted set is an untouched input dependency,
one of the two selected variant strings, or the re-added bare
`ultralytics`. -/
theorem mem_adjust_cases (deps : Finset String) (sys : String) (x : String)
    (hx : x ∈ adjust_dependencies deps sys) :
    x ∈ deps ∨ x = torchVersionFor sys ∨ x = torchvisionVersionFor sys ∨
      x = "ultralytics" := by
  simp only [adjust_dependencies] at hx
  split_ifs at hx <;>
    simp only [Finset.mem_union, Finset.mem_insert, Finset.mem_singleton,
      Finset.mem_erase, Finset.not_mem_empty] at hx <;>
    tauto

/-- When both `torch` and `torchvision` are present, adjustment replaces
exactly those two names with their selected variant strings and keeps
everything else. -/
theorem adjust_eq_of_torch_torchvision (deps : Finset String) (sys : String)
    (h1 : ("torch") ∈ deps) (h2 : ("torchvision") ∈ deps) :
    adjust_dependencies deps sys =
      insert (torchVersionFor sys) (insert (torchvisionVersionFor sys)
        ((deps.erase ("torch")).erase ("torchvision"))) := by
  have htv : ("torchvision") ∈ deps.erase ("torch") :=
    Finset.mem_erase.mpr ⟨by decide, h2⟩
  simp only [adjust_dependencies, if_pos (Or.inl h1), if_pos (Or.inl htv)]
  by_cases hu : ("ultralytics") ∈ (deps.erase ("torch")).erase ("torchvision")
  · rw [if_pos hu, if_pos hu]
    ext x
    simp only [Finset.mem_union, Finset.mem_insert, Finset.mem_singleton]
    constructor
    · rintro ((rfl | rfl | rfl) | hx)
      · exact Or.inr (Or.inr hu)
      · exact Or.inr (Or.inl rfl)
      · exact Or.inl rfl
      · exact Or.inr (Or.inr (Finset.mem_of_mem_erase hx))
    · rintro (rfl | rfl | hxm)
      · exact Or.inl (Or.inr (Or.inr rfl))
      · exact Or.inl (Or.inr (Or.inl rfl))
      · by_cases hxe : x = "ultralytics"
        · exact Or.inl (Or.inl hxe)
        · exact Or.inr (Finset.mem_erase.mpr ⟨hxe, hxm⟩)
  · rw [if_neg hu, if_neg hu]
    ext x
    simp only [Finset.mem_union, Finset.mem_insert, Finset.mem_singleton]
    tauto

/-- C2: with both `torch` and `torchvision` among the dependencies, a
GPU-class system type (`linux-gpu` or `windows-gpu`) replaces each of
them with its cu117 variant string, a CPU-class system type (`linux-cpu`
or `windows-cpu`) replaces each with its cpu variant string, and every
other package passes through unchanged. -/
theorem gpu_cpu_variant_selection (deps : Finset String) (system_type : String)
    (h1 : ("torch") ∈ deps) (h2 : ("torchvision") ∈ deps) :
    ((system_type = "linux-gpu" ∨ system_type = "windows-gpu") →
      adjust_dependencies deps system_type =
        insert gpuTorchStr (insert gpuTorchvisionStr
          ((deps.erase ("torch")).erase ("torchvision")))) ∧
    ((system_type = "linux-cpu" ∨ system_type = "windows-cpu") →
      adjust_dependencies deps system_type =
        insert cpuTorchStr (insert cpuTorchvisionStr
          ((deps.erase ("torch")).erase ("torchvision")))) ∧
    (∀ p ∈ deps, p ≠ "torch" → p ≠ "torchvision" →
      p ∈ adjust_dependencies deps system_type) := by
  refine ⟨?_, ?_, ?_⟩
  · rintro (rfl | rfl) <;>
      rw [adjust_eq_of_torch_torchvision deps _ h1 h2] <;>
      rw [show torchVersionFor _ = gpuTorchStr from by decide,
        show torchvisionVersionFor _ = gpuTorchvisionStr from by decide]
  · rintro (rfl | rfl) <;>
      rw [adjust_eq_of_torch_torchvision deps _ h1 h2] <;>
      rw [show torchVersionFor _ = cpuTorchStr from by decide,
        show torchvisionVersionFor _ = cpuTorchvisionStr from by decide]
  · intro p hp hpt hptv
    by_cases hpu : p = "ultralytics"
    · subst hpu
      exact ultralytics_mem_adjust deps _ hp
    · exact other_mem_adjust deps _ p hp hpt hptv hpu

/-- Witness for C2 at a concrete input. -/
theorem gpu_cpu_variant_selection_witness :
    ("torch") ∈ ({"torch", "torchvision", "numpy"} : Finset String) ∧
    ("torchvision") ∈ ({"torch", "torchvision", "numpy"} : Finset String) ∧
    adjust_dependencies {"torch", "torchvision", "numpy"} ("linux-gpu") =
      insert gpuTorchStr (insert gpuTorchvisionStr
        ((({"torch", "torchvision", "numpy"} : Finset String).erase
          ("torch")).erase ("torchvision"))) := by
  have h := gpu_cpu_variant_selection {"torch", "torchvision", "numpy"}
    ("linux-gpu") (by decide) (by decide)
  exact ⟨by decide, by decide, h.1 (Or.inl rfl)⟩

/-- C10: when `ultralytics` is among the dependencies, adjustment adds
both the selected torch variant and the selected torchvision variant —
no `torch` or `torchvision` membership required — and `ultralytics`
itself passes through as a bare name. -/
theorem ultralytics_pulls_torch_variants (deps : Finset String)
    (system_type : String) (h : ("ultralytics") ∈ deps) :
    torchVersionFor system_type ∈ adjust_dependencies deps system_type ∧
    torchvisionVersionFor system_type ∈ adjust_dependencies deps system_type ∧
    ("ultralytics") ∈ adjust_dependencies deps system_type :=
  ⟨torchVersion_mem_adjust deps _ (Or.inr h),
   torchvisionVersion_mem_adjust deps _ (Or.inr h),
   ultralytics_mem_adjust deps _ h⟩

/-- Witness for C10 at a concrete input: neither `torch` nor
`torchvision` is present, yet both variant strings are added. -/
theorem ultralytics_pulls_torch_variants_witness :
    ("ultralytics") ∈ ({"ultralytics"} : Finset String) ∧
    ("torch") ∉ ({"ultralytics"} : Finset String) ∧
    ("torchvision") ∉ ({"ultralytics"} : Finset String) ∧
    torchVersionFor ("linux-cpu") ∈
      adjust_dependencies {"ultralytics"} ("linux-cpu") ∧
    torchvisionVersionFor ("linux-cpu") ∈
      adjust_dependencies {"ultralytics"} ("linux-cpu") ∧
    ("ultralytics") ∈ adjust_dependencies {"ultralytics"} ("linux-cpu") := by
  have h := ultralytics_pulls_torch_variants {"ultralytics"} ("linux-cpu")
    (by decide)
  exact ⟨by decide, by decide, by decide, h.1, h.2.1, h.2.2⟩

/-! ### File discovery and the main control flow -/

/-- A one-directory filesystem: the single configured root `p` holds one
source file `a.py` and nothing else. -/
def oneDirFS : FS where
  walk := fun p => if p = "p" then [⟨"p", ["a.py"]⟩] else []
  listdir := fun p => if p = "p" then ["a.py"] else []
  isVenv := fun _ => false

/-- C7 counterexample: with the configured root itself matching an
include-folder substring, the single file `p/a.py` is collected twice —
once by the recursive walk and once by the top-level listing — so the
candidate file collection is not deduplicated. -/
theorem find_python_files_not_deduplicated :
    find_python_files oneDirFS ["p"] ["p"] [] = ["p/a.py", "p/a.py"] ∧
    ¬ (find_python_files oneDirFS ["p"] ["p"] []).Nodup := by
  constructor
  · decide
  · decide

/-- C7 amended: the candidate file collection is an ordered list that can
hold the same path more than once, and the duplicates are harmless —
extracting dependencies from the discovered files gives the same set as
extracting them from the deduplicated list, because extraction
accumulates module names into a set. -/
theorem discovered_duplicates_harmless (fsys : FS)
    (paths include_folders ignore_dirs : List String)
    (parseOf : String → PyFile) :
    extract_dependencies
        ((find_python_files fsys paths include_folders ignore_dirs).map parseOf) =
      extract_dependencies
        ((find_python_files fsys paths include_folders ignore_dirs).dedup.map
          parseOf) := by
  ext x
  simp only [extract_dependencies, List.mem_toFinset, List.mem_flatMap,
    List.mem_map, List.mem_dedup]

/-- A run environment whose configuration loads fine but whose `venv`
subprocess fails. -/
def venvFailEnv : MainEnv where
  configOk := true
  venvOk := false
  osWriteOk := true
  files := []
  idx := offlineIdx
  builtinNames := []
  dirModules := []
  system_type := "linux"
  enum := fun _ => []

/-- A run environment in which every external step succeeds. -/
def allOkEnv : MainEnv where
  configOk := true
  venvOk := true
  osWriteOk := true
  files := []
  idx := offlineIdx
  builtinNames := []
  dirModules := []
  system_type := "linux"
  enum := fun _ => []

/-- C8 counterexample: the configuration loads fine, yet the run aborts
with exit code 1 because virtual-environment creation failed — so the
configuration file is not the only fatal condition. -/
theorem venv_failure_also_aborts :
    venvFailEnv.configOk = true ∧ runMain venvFailEnv = .exit 1 :=
  ⟨rfl, rfl⟩

/-- C8 amended: a run terminates early exactly when the configuration
fails to load or the `venv` subprocess fails (both with exit code 1);
once past those two steps the run always reaches implicit success, and a
manifest-write failure only changes the manifest carried by the success
outcome, never the exit behaviour. -/
theorem abort_conditions (e : MainEnv) :
    ((∃ c, runMain e = .exit c) ↔ (e.configOk = false ∨ e.venvOk = false)) ∧
    (e.configOk = true → e.venvOk = true → ∀ b : Bool,
      runMain { e with osWriteOk := b } =
        .success (if b then
          generate_requirements_txt (e.enum (adjust_dependencies
            (validate_dependencies e.idx (e.enum (filter_dependencies
              e.builtinNames e.dirModules (extract_dependencies e.files))))
            e.system_type))
        else none)) := by
  obtain ⟨cfg, venv, osw, files, idx, bn, dm, st, en⟩ := e
  cases cfg <;> cases venv <;>
    simp [runMain, RunOutcome.exit.injEq]

/-- Witness for C8 (amended) at a concrete input: with configuration and
venv fine but the manifest write failing, the run still ends in implicit
success carrying no manifest. -/
theorem abort_conditions_witness :
    allOkEnv.configOk = true ∧ allOkEnv.venvOk = true ∧
    runMain { allOkEnv with osWriteOk := false } = .success none ∧
    ¬ ∃ c, runMain allOkEnv = .exit c := by
  have h := abort_conditions allOkEnv
  refine ⟨rfl, rfl, ?_, ?_⟩
  · simpa using h.2 rfl rfl false
  · intro hc
    rcases h.1.mp hc with h1 | h1 <;> cases h1

/-! ### Lemmas about manifest entries -/

/-- Whether a manifest entry is a bare single-line entry. -/
def isBare : ManifestEntry → Bool
  | .bare _ => true
  | .withFindLinks _ _ => false

/-- A marker-free dependency is written as a bare entry. -/
theorem entryOf_clean {x : String} (h : splitOnMarker x.data = [x.data]) :
    entryOf x = .bare x.data := by
  simp [entryOf, h]

/-- Writing a marker-free dependency succeeds, with a bare entry. -/
theorem generateEntry_clean {x : String} (h : splitOnMarker x.data = [x.data]) :
    generateEntry x = some (.bare x.data) := by
  simp [generateEntry, h]

/-- Unfolding one step of `generate_requirements_txt`. -/
theorem generate_cons (d : String) (rest : List String) :
    generate_requirements_txt (d :: rest) =
      (match generateEntry d with
       | none => none
       | some e => (generate_requirements_txt rest).map (fun es => e :: es)) := rfl

/-- When every dependency in the list writes cleanly, the generated
manifest is the entry of each dependency, in order. -/
theorem generate_eq_map (deps : List String)
    (h : ∀ d ∈ deps, generateEntry d = some (entryOf d)) :
    generate_requirements_txt deps = some (deps.map entryOf) := by
  induction deps with
  | nil => rfl
  | cons d rest ih =>
    rw [generate_cons, h d (List.mem_cons_self d rest),
      ih (fun x hx => h x (List.mem_cons_of_mem d hx))]
    rfl

/-- The torch variant string is one of three concrete values. -/
theorem torchVersionFor_cases (sys : String) :
    torchVersionFor sys = gpuTorchStr ∨ torchVersionFor sys = cpuTorchStr ∨
    torchVersionFor sys = "torch" := by
  rw [torchVersionFor]
  split_ifs <;> simp

/-- The torchvision variant string is one of three concrete values. -/
theorem torchvisionVersionFor_cases (sys : String) :
    torchvisionVersionFor sys = gpuTorchvisionStr ∨
    torchvisionVersionFor sys = cpuTorchvisionStr ∨
    torchvisionVersionFor sys = "torchvision" := by
  rw [torchvisionVersionFor]
  split_ifs <;> simp

/-- The four marker-carrying variant strings write successfully. -/
theorem variant_generate :
    generateEntry gpuTorchStr = some (entryOf gpuTorchStr) ∧
    generateEntry cpuTorchStr = some (entryOf cpuTorchStr) ∧
    generateEntry gpuTorchvisionStr = some (entryOf gpuTorchvisionStr) ∧
    generateEntry cpuTorchvisionStr = some (entryOf cpuTorchvisionStr) := by
  refine ⟨?_, ?_, ?_, ?_⟩ <;> decide

/-- The four marker-carrying variant strings become find-links entries,
not bare entries. -/
theorem variant_isBare :
    isBare (entryOf gpuTorchStr) = false ∧
    isBare (entryOf cpuTorchStr) = false ∧
    isBare (entryOf gpuTorchvisionStr) = false ∧
    isBare (entryOf cpuTorchvisionStr) = false := by
  refine ⟨?_, ?_, ?_, ?_⟩ <;> decide

/-- The four marker-carrying variant strings have pairwise distinct
manifest entries. -/
theorem variant_entry_ne :
    entryOf gpuTorchStr ≠ entryOf cpuTorchStr ∧
    entryOf gpuTorchStr ≠ entryOf gpuTorchvisionStr ∧
    entryOf gpuTorchStr ≠ entryOf cpuTorchvisionStr ∧
    entryOf cpuTorchStr ≠ entryOf gpuTorchvisionStr ∧
    entryOf cpuTorchStr ≠ entryOf cpuTorchvisionStr ∧
    entryOf gpuTorchvisionStr ≠ entryOf cpuTorchvisionStr := by
  refine ⟨?_, ?_, ?_, ?_, ?_, ?_⟩ <;> decide

/-- A marker-free dependency and a marker-carrying one never share a
manifest entry. -/
theorem clean_entry_ne_of_isBare {x v : String}
    (hcx : splitOnMarker x.data = [x.data])
    (hv : isBare (entryOf v) = false) : entryOf x ≠ entryOf v := by
  intro he
  have h1 : isBare (entryOf x) = true := by rw [entryOf_clean hcx]; rfl
  rw [he, hv] at h1
  exact Bool.noConfusion h1

/-- A non-bare entry is a find-links entry. -/
theorem exists_withFindLinks_of_not_isBare {e : ManifestEntry}
    (h : isBare e = false) : ∃ pkg url, e = .withFindLinks pkg url := by
  cases e with
  | bare n => exact Bool.noConfusion h
  | withFindLinks pkg url => exact ⟨pkg, url, rfl⟩

/-- When the validated set is marker-free, every element of the adjusted
set is marker-free or one of the four concrete variant strings. -/
theorem adjust_elem_classify (validated : Finset String) (sys : String)
    (hclean : ∀ d ∈ validated, splitOnMarker d.data = [d.data]) (z : String)
    (hz : z ∈ adjust_dependencies validated sys) :
    splitOnMarker z.data = [z.data] ∨ z = gpuTorchStr ∨ z = cpuTorchStr ∨
    z = gpuTorchvisionStr ∨ z = cpuTorchvisionStr := by
  rcases mem_adjust_cases validated sys z hz with h | h | h | h
  · exact Or.inl (hclean z h)
  · rcases torchVersionFor_cases sys with hv | hv | hv
    · exact Or.inr (Or.inl (h.trans hv))
    · exact Or.inr (Or.inr (Or.inl (h.trans hv)))
    · have hz2 := h.trans hv
      subst hz2
      exact Or.inl (by decide)
  · rcases torchvisionVersionFor_cases sys with hv | hv | hv
    · exact Or.inr (Or.inr (Or.inr (Or.inl (h.trans hv))))
    · exact Or.inr (Or.inr (Or.inr (Or.inr (h.trans hv))))
    · have hz2 := h.trans hv
      subst hz2
      exact Or.inl (by decide)
  · subst h
    exact Or.inl (by decide)

/-- Writing any element of the adjusted set succeeds. -/
theorem generateEntry_adjust (validated : Finset String) (sys : String)
    (hclean : ∀ d ∈ validated, splitOnMarker d.data = [d.data]) (d : String)
    (hd : d ∈ adjust_dependencies validated sys) :
    generateEntry d = some (entryOf d) := by
  rcases adjust_elem_classify validated sys hclean d hd with h | rfl | rfl | rfl | rfl
  · rw [generateEntry_clean h, entryOf_clean h]
  · exact variant_generate.1
  · exact variant_generate.2.1
  · exact variant_generate.2.2.1
  · exact variant_generate.2.2.2

/-- On a marker-free validated set, distinct adjusted dependencies are
written as distinct manifest entries. -/
theorem adjust_entry_inj (validated : Finset String) (sys : String)
    (hclean : ∀ d ∈ validated, splitOnMarker d.data = [d.data]) {x y : String}
    (hx : x ∈ adjust_dependencies validated sys)
    (hy : y ∈ adjust_dependencies validated sys)
    (he : entryOf x = entryOf y) : x = y := by
  have cx := adjust_elem_classify validated sys hclean x hx
  have cy := adjust_elem_classify validated sys hclean y hy
  rcases cx with hcx | rfl | rfl | rfl | rfl <;>
    rcases cy with hcy | rfl | rfl | rfl | rfl <;>
    first
      | rfl
      | (exact String.data_injective (by
          rw [entryOf_clean hcx, entryOf_clean hcy] at he
          simpa using he))
      | (exact absurd he (clean_entry_ne_of_isBare hcx variant_isBare.1))
      | (exact absurd he (clean_entry_ne_of_isBare hcx variant_isBare.2.1))
      | (exact absurd he (clean_entry_ne_of_isBare hcx variant_isBare.2.2.1))
      | (exact absurd he (clean_entry_ne_of_isBare hcx variant_isBare.2.2.2))
      | (exact absurd he.symm (clean_entry_ne_of_isBare hcy variant_isBare.1))
      | (exact absurd he.symm (clean_entry_ne_of_isBare hcy variant_isBare.2.1))
      | (exact absurd he.symm (clean_entry_ne_of_isBare hcy variant_isBare.2.2.1))
      | (exact absurd he.symm (clean_entry_ne_of_isBare hcy variant_isBare.2.2.2))
      | (exact absurd he variant_entry_ne.1)
      | (exact absurd he variant_entry_ne.2.1)
      | (exact absurd he variant_entry_ne.2.2.1)
      | (exact absurd he variant_entry_ne.2.2.2.1)
      | (exact absurd he variant_entry_ne.2.2.2.2.1)
      | (exact absurd he variant_entry_ne.2.2.2.2.2)
      | (exact absurd he.symm variant_entry_ne.1)
      | (exact absurd he.symm variant_entry_ne.2.1)
      | (exact absurd he.symm variant_entry_ne.2.2.1)
      | (exact absurd he.symm variant_entry_ne.2.2.2.1)
      | (exact absurd he.symm variant_entry_ne.2.2.2.2.1)
      | (exact absurd he.symm variant_entry_ne.2.2.2.2.2)

/-- Every validated package has its adjusted form in the adjusted set. -/
theorem adjustOne_mem_adjust (deps : Finset String) (sys p : String)
    (hp : p ∈ deps) : adjustOne sys p ∈ adjust_dependencies deps sys := by
  rw [adjustOne]
  split_ifs with h1 h2
  · subst h1
    exact torchVersion_mem_adjust deps sys (Or.inl hp)
  · subst h2
    exact torchvisionVersion_mem_adjust deps sys (Or.inl hp)
  · by_cases h3 : p = "ultralytics"
    · subst h3
      exact ultralytics_mem_adjust deps sys hp
    · exact other_mem_adjust deps sys p hp h1 h2 h3

/-- C1: take any marker-free validated set through the final two pipeline
stages — platform adjustment, then manifest writing over the adjusted set
in its iteration order. Writing succeeds; every entry written is either a
bare, marker-free package name on one line or a package line plus a
find-links continuation line; and the entry of every validated package
occurs in the manifest exactly once. -/
theorem manifest_roundtrip (validated : Finset String) (system_type : String)
    (hclean : ∀ d ∈ validated, splitOnMarker d.data = [d.data])
    (l : List String) (hnd : l.Nodup)
    (hmem : ∀ x, x ∈ l ↔ x ∈ adjust_dependencies validated system_type) :
    ∃ entries : List ManifestEntry,
      generate_requirements_txt l = some entries ∧
      (∀ e ∈ entries,
        (∃ n, e = .bare n ∧ splitOnMarker n = [n] ∧ entryLines e = [n]) ∨
        (∃ pkg url, e = .withFindLinks pkg url ∧
          entryLines e = [pkg ++ (" \\").data,
            ("    --find-links ").data ++ url])) ∧
      (∀ p ∈ validated,
        entries.count (entryOf (adjustOne system_type p)) = 1) := by
  refine ⟨l.map entryOf, ?_, ?_, ?_⟩
  · exact generate_eq_map l
      (fun d hd => generateEntry_adjust validated system_type hclean d
        ((hmem d).mp hd))
  · intro e he
    rcases List.mem_map.mp he with ⟨d, hdl, rfl⟩
    rcases adjust_elem_classify validated system_type hclean d
        ((hmem d).mp hdl) with h | rfl | rfl | rfl | rfl
    · exact Or.inl ⟨d.data, entryOf_clean h, h, by rw [entryOf_clean h]; rfl⟩
    · rcases exists_withFindLinks_of_not_isBare variant_isBare.1
        with ⟨pkg, url, hpu⟩
      exact Or.inr ⟨pkg, url, hpu, by rw [hpu]; rfl⟩
    · rcases exists_withFindLinks_of_not_isBare variant_isBare.2.1
        with ⟨pkg, url, hpu⟩
      exact Or.inr ⟨pkg, url, hpu, by rw [hpu]; rfl⟩
    · rcases exists_withFindLinks_of_not_isBare variant_isBare.2.2.1
        with ⟨pkg, url, hpu⟩
      exact Or.inr ⟨pkg, url, hpu, by rw [hpu]; rfl⟩
    · rcases exists_withFindLinks_of_not_isBare variant_isBare.2.2.2
        with ⟨pkg, url, hpu⟩
      exact Or.inr ⟨pkg, url, hpu, by rw [hpu]; rfl⟩
  · intro p hp
    have hnodupE : (l.map entryOf).Nodup :=
      List.Nodup.map_on
        (fun a ha b hb hab =>
          adjust_entry_inj validated system_type hclean
            ((hmem a).mp ha) ((hmem b).mp hb) hab) hnd
    have hmemE : entryOf (adjustOne system_type p) ∈ l.map entryOf :=
      List.mem_map.mpr ⟨adjustOne system_type p,
        (hmem _).mpr (adjustOne_mem_adjust validated system_type p hp), rfl⟩
    exact List.count_eq_one_of_mem hnodupE hmemE

/-- Witness for C1 at a concrete input. -/
theorem manifest_roundtrip_witness :
    (∀ d ∈ ({"numpy", "torch"} : Finset String),
      splitOnMarker d.data = [d.data]) ∧
    ([gpuTorchStr, "numpy"].Nodup) ∧
    (∃ entries : List ManifestEntry,
      generate_requirements_txt [gpuTorchStr, "numpy"] = some entries ∧
      (∀ e ∈ entries,
        (∃ n, e = .bare n ∧ splitOnMarker n = [n] ∧ entryLines e = [n]) ∨
        (∃ pkg url, e = .withFindLinks pkg url ∧
          entryLines e = [pkg ++ (" \\").data,
            ("    --find-links ").data ++ url])) ∧
      (∀ p ∈ ({"numpy", "torch"} : Finset String),
        entries.count (entryOf (adjustOne ("linux-gpu") p)) = 1)) := by
  have hset : adjust_dependencies {"numpy", "torch"} ("linux-gpu") =
      ({gpuTorchStr, "numpy"} : Finset String) := by decide
  refine ⟨by decide, by decide, ?_⟩
  exact manifest_roundtrip {"numpy", "torch"} ("linux-gpu") (by decide)
    [gpuTorchStr, "numpy"] (by decide)
    (by
      intro x
      rw [hset]
      simp [List.mem_cons, Finset.mem_insert])

end PyEnv
